import Mathlib

/-!
Verification of `get_events_artists.py`, a Last.fm event/artist scraper.

Strings are modelled as `List Char` (Python strings are sequences of code
points).  Python's `str.lower`, `str.upper` and `Char` comparisons are
modelled character-wise; the ASCII fragment of these functions is modelled
exactly, and the accented letters appearing in this development are added
explicitly where Python's Unicode behaviour differs from the ASCII one
(see `pyIsAlpha` and `pyToUpper`).
-/

/-- A Python string: a list of characters (code points). -/
abbrev PyStr := List Char

/-- Python's `str.lower()`, character-wise (ASCII fragment). -/
def pyLower (s : PyStr) : PyStr := s.map Char.toLower

/-- Python's `ch.upper()` for one character.  `Char.toUpper` is the ASCII
fragment; the accented letter `é` (which Python uppercases to `É`) is added
explicitly since it is used in this development. -/
def pyToUpper (c : Char) : Char := if c = 'é' then 'É' else c.toUpper

/-- Python's Unicode-aware `str.isalpha()` on one character: the ASCII
letters, plus the non-ASCII letters used in this development (`é`, `É`),
for which Python returns `True` while they are outside `A`-`Z`. -/
def pyIsAlpha (c : Char) : Bool := c.isAlpha || c = 'é' || c = 'É'

/-- Python's `str.strip()`: drop whitespace from both ends. -/
def pyStrip (s : PyStr) : PyStr :=
  ((s.dropWhile Char.isWhitespace).reverse.dropWhile Char.isWhitespace).reverse

/-- Lexicographic `≤` on strings by code point, as Python compares
`str` values (`sorted` uses this ordering on the sort keys). -/
def lexLe : PyStr → PyStr → Bool
  | [], _ => true
  | _ :: _, [] => false
  | a :: as, b :: bs => if a = b then lexLe as bs else decide (a < b)

/-!  URL canonicalization, from `get_event_urls_from_page` lines 64-74:
`full_url = full_url.split('?')[0]`, then for each suffix in
`['/attendance', '/going', '/interested', '/lineup']` strip it if the URL
ends with it, then `full_url = full_url + '/lineup'`. -/

/-- `u[:-len(t)] if u.endswith(t) else u`: one conditional strip of the
trailing segment `t`. -/
def stripEnding (u t : PyStr) : PyStr :=
  if t <:+ u then u.take (u.length - t.length) else u

/-- `full_url.split('?')[0]`: everything before the first `?`. -/
def splitQuery (u : PyStr) : PyStr := u.takeWhile (fun c => c ≠ '?')

/-- The URL clean-up of lines 66-72: strip the query string, strip any of
the known trailing segments (in the source's order), append `/lineup`. -/
def canonicalize (full_url : PyStr) : PyStr :=
  let u0 := splitQuery full_url
  let u1 := stripEnding u0 "/attendance".toList
  let u2 := stripEnding u1 "/going".toList
  let u3 := stripEnding u2 "/interested".toList
  let u4 := stripEnding u3 "/lineup".toList
  u4 ++ "/lineup".toList

/-- The href-scanning loop of lines 59-74: for each href containing the
substring `/event/`, resolve it (`urljoin(BASE_URL, href)`, abstracted as
`resolve`), canonicalize, and append to the accumulator if not already
present.  `event_urls` is the accumulator the source mutates. -/
def get_event_urls_loop (resolve : PyStr → PyStr) (hrefs : List PyStr)
    (event_urls : List PyStr) : List PyStr :=
  hrefs.foldl
    (fun acc href =>
      if "/event/".toList <:+: href then
        let full_url := canonicalize (resolve href)
        if full_url ∈ acc then acc else acc ++ [full_url]
      else acc)
    event_urls

/-!  Basic facts about the canonical form.  -/

theorem splitQuery_no_q (u : PyStr) : '?' ∉ splitQuery u := by
  intro h
  have := List.mem_takeWhile_imp h
  simp at this

theorem stripEnding_subset {u t : PyStr} : stripEnding u t ⊆ u := by
  unfold stripEnding
  split
  · exact (List.take_sublist _ _).subset
  · exact fun _ h => h

theorem canonicalize_no_q (u : PyStr) : '?' ∉ canonicalize u := by
  unfold canonicalize
  intro h
  rcases List.mem_append.1 h with h | h
  · exact splitQuery_no_q u
      (stripEnding_subset (stripEnding_subset (stripEnding_subset (stripEnding_subset h))))
  · simp [String.toList] at h

theorem canonicalize_ends_lineup (u : PyStr) :
    "/lineup".toList <:+ canonicalize u := by
  unfold canonicalize
  exact List.suffix_append _ _

theorem splitQuery_canonicalize (u : PyStr) :
    splitQuery (canonicalize u) = canonicalize u :=
  List.takeWhile_eq_self_iff.mpr fun x hx => by
    simp only [decide_eq_true_eq, ne_eq]
    intro h
    subst h
    exact canonicalize_no_q u hx

theorem not_attendance_suffix_canonicalize (u : PyStr) :
    ¬ ("/attendance".toList <:+ canonicalize u) := by
  intro h
  have h2 := List.suffix_of_suffix_length_le (canonicalize_ends_lineup u) h (by decide)
  revert h2
  decide

theorem not_going_suffix_canonicalize (u : PyStr) :
    ¬ ("/going".toList <:+ canonicalize u) := by
  intro h
  have h2 := List.suffix_of_suffix_length_le h (canonicalize_ends_lineup u) (by decide)
  revert h2
  decide

theorem not_interested_suffix_canonicalize (u : PyStr) :
    ¬ ("/interested".toList <:+ canonicalize u) := by
  intro h
  have h2 := List.suffix_of_suffix_length_le (canonicalize_ends_lineup u) h (by decide)
  revert h2
  decide

theorem stripEnding_lineup_canonicalize (u : PyStr) :
    stripEnding (canonicalize u) "/lineup".toList ++ "/lineup".toList
      = canonicalize u := by
  obtain ⟨s, hs⟩ := canonicalize_ends_lineup u
  rw [stripEnding, if_pos (canonicalize_ends_lineup u), ← hs]
  have hlen : (s ++ "/lineup".toList).length - ("/lineup".toList).length
      = s.length := by
    simp
  rw [hlen, List.take_left]

theorem canonicalize_idempotent (u : PyStr) :
    canonicalize (canonicalize u) = canonicalize u := by
  have e1 : stripEnding (canonicalize u) "/attendance".toList = canonicalize u := by
    unfold stripEnding
    rw [if_neg (not_attendance_suffix_canonicalize u)]
  have e2 : stripEnding (canonicalize u) "/going".toList = canonicalize u := by
    unfold stripEnding
    rw [if_neg (not_going_suffix_canonicalize u)]
  have e3 : stripEnding (canonicalize u) "/interested".toList = canonicalize u := by
    unfold stripEnding
    rw [if_neg (not_interested_suffix_canonicalize u)]
  show stripEnding (stripEnding (stripEnding (stripEnding (splitQuery (canonicalize u))
      "/attendance".toList) "/going".toList) "/interested".toList) "/lineup".toList
      ++ "/lineup".toList = canonicalize u
  rw [splitQuery_canonicalize, e1, e2, e3]
  exact stripEnding_lineup_canonicalize u

/-!  Pages and fetch outcomes.

`requests.get` + BeautifulSoup parsing cannot be embedded directly; a
fetched listing page is abstracted as the lists of anchor hrefs the two
DOM scans of lines 47-54 produce, and a fetched event page as the texts
the three artist heuristics of lines 122-143 read.  A fetch attempt either
succeeds (HTTP 200 with a parsed page), returns another status code, or
raises `requests.exceptions.RequestException`. -/

/-- A fetched listing page: `cardHrefs` are the hrefs of anchors inside
elements whose class contains `event` or `card` (lines 47-50), `allHrefs`
the hrefs of all anchors on the page (lines 53-54); the source scans the
concatenation of the two. -/
structure ListingPage where
  cardHrefs : List PyStr
  allHrefs : List PyStr

/-- A fetched event lineup page, abstracted as what the three heuristics
of `get_artists_from_event` read: the text of each
`<a class='link-block-target'>` (lines 122-126), the text of each
`h1`/`h2`/`h3` whose class list contains `event-detail-artists`
(lines 129-133), and, when a lineup container is found (line 136), for
each `<li>` in it the text of its first `<a>` if it has one
(lines 138-143). -/
structure EventPage where
  linkBlockTargetTexts : List PyStr
  headingTexts : List PyStr
  lineupItems : Option (List (Option PyStr))

/-- Outcome of one `requests.get` attempt. -/
inductive FetchOutcome (π : Type) where
  | ok (page : π)
  | status (code : Nat)
  | netError

/-- Whether the attempt returned HTTP 200. -/
def FetchOutcome.isOk {π : Type} : FetchOutcome π → Bool
  | .ok _ => true
  | _ => false

/-- An observable side effect of a fetch wrapper: one `requests.get` call,
one `time.sleep(s)`, or one diagnostic line written to `sys.stderr`.
(Progress output on stdout is not modelled.) -/
inductive RAction where
  | httpGet
  | sleepSec (s : ℚ)
  | stderrLine
  deriving DecidableEq

def max_retries : Nat := 3

/-- State of the retry loop of `get_event_urls_from_page` (lines 28-96):
whether `break` has run, the accumulated `event_urls`, and the trace of
observable effects. -/
structure EventFetchSt where
  done : Bool
  event_urls : List PyStr
  trace : List RAction

/-- One iteration of the retry loop of `get_event_urls_from_page`
(lines 31-94).  On 200: parse, extract, `break`.  On another status: print
the status line to stderr, then sleep 5 seconds if attempts remain, else
print the failure line.  On a request exception: print the error line,
then print the retry notice and sleep 5 seconds if attempts remain, else
print the failure line. -/
def eventStep (resolve : PyStr → PyStr) (fetch : Nat → FetchOutcome ListingPage)
    (st : EventFetchSt) (attempt : Nat) : EventFetchSt :=
  if st.done then st else
  match fetch attempt with
  | .ok page =>
      { done := true
        event_urls := get_event_urls_loop resolve (page.cardHrefs ++ page.allHrefs) st.event_urls
        trace := st.trace ++ [RAction.httpGet] }
  | .status _ =>
      { done := false
        event_urls := st.event_urls
        trace := st.trace ++ [RAction.httpGet, RAction.stderrLine]
          ++ (if attempt < max_retries - 1 then [RAction.sleepSec 5] else [RAction.stderrLine]) }
  | .netError =>
      { done := false
        event_urls := st.event_urls
        trace := st.trace ++ [RAction.httpGet, RAction.stderrLine]
          ++ (if attempt < max_retries - 1 then [RAction.stderrLine, RAction.sleepSec 5]
              else [RAction.stderrLine]) }

/-- `get_event_urls_from_page` (lines 17-96): run the 3-attempt retry loop
and return the accumulated `event_urls`, together with the trace of
observable effects. -/
def get_event_urls_from_page (resolve : PyStr → PyStr)
    (fetch : Nat → FetchOutcome ListingPage) : List PyStr × List RAction :=
  let st := (List.range max_retries).foldl (eventStep resolve fetch)
    { done := false, event_urls := [], trace := [] }
  (st.event_urls, st.trace)

/-- `artists.add(link.get_text(strip=True))` guarded by truthiness: strip
the text and insert it unless it is empty (lines 124-126 and analogous). -/
def addArtist (s : Finset PyStr) (t : PyStr) : Finset PyStr :=
  let artist_name := pyStrip t
  if artist_name ≠ [] then insert artist_name s else s

/-- The `<li>` variant (lines 138-143): skip items with no anchor. -/
def addArtistItem (s : Finset PyStr) (it : Option PyStr) : Finset PyStr :=
  match it with
  | none => s
  | some t => addArtist s t

/-- The three artist heuristics applied to one fetched page, lines
120-143: `link-block-target` anchors, `event-detail-artists` headings,
and list items of the lineup container, all accumulated into one set. -/
def get_artists_from_page (page : EventPage) : Finset PyStr :=
  let artists : Finset PyStr := ∅
  let artists := page.linkBlockTargetTexts.foldl addArtist artists
  let artists := page.headingTexts.foldl addArtist artists
  match page.lineupItems with
  | none => artists
  | some items => items.foldl addArtistItem artists

/-- State of the retry loop of `get_artists_from_event` (lines 110-169). -/
structure ArtistFetchSt where
  done : Bool
  artists : Finset PyStr
  trace : List RAction

/-- One iteration of the retry loop of `get_artists_from_event`
(lines 113-167).  Unlike the listing-page fetcher, the status and error
lines are only printed when `verbose` is set or this is the last attempt,
and the retry/failure notices of the exception branch only when `verbose`
is set; the failure line of the status branch is printed unconditionally. -/
def artistStep (fetch : Nat → FetchOutcome EventPage) (verbose : Bool)
    (st : ArtistFetchSt) (attempt : Nat) : ArtistFetchSt :=
  if st.done then st else
  match fetch attempt with
  | .ok page =>
      { done := true
        artists := st.artists ∪ get_artists_from_page page
        trace := st.trace ++ [RAction.httpGet] }
  | .status _ =>
      { done := false
        artists := st.artists
        trace := st.trace ++ [RAction.httpGet]
          ++ (if verbose || attempt = max_retries - 1 then [RAction.stderrLine] else [])
          ++ (if attempt < max_retries - 1 then [RAction.sleepSec 5] else [RAction.stderrLine]) }
  | .netError =>
      { done := false
        artists := st.artists
        trace := st.trace ++ [RAction.httpGet]
          ++ (if verbose || attempt = max_retries - 1 then [RAction.stderrLine] else [])
          ++ (if attempt < max_retries - 1 then
                (if verbose then [RAction.stderrLine] else []) ++ [RAction.sleepSec 5]
              else (if verbose then [RAction.stderrLine] else [])) }

/-- `get_artists_from_event` (lines 99-169): run the 3-attempt retry loop
and return the accumulated artist set, with the trace of observable
effects. -/
def get_artists_from_event (fetch : Nat → FetchOutcome EventPage)
    (verbose : Bool) : Finset PyStr × List RAction :=
  let st := (List.range max_retries).foldl (artistStep fetch verbose)
    { done := false, artists := ∅, trace := [] }
  (st.artists, st.trace)

/-!  Claim C3: cleanliness of extracted URL lists.  -/

theorem get_event_urls_loop_clean (resolve : PyStr → PyStr) (hrefs : List PyStr)
    (acc : List PyStr)
    (h1 : ∀ u ∈ acc, "/lineup".toList <:+ u)
    (h2 : ∀ u ∈ acc, '?' ∉ u)
    (h3 : acc.Nodup) :
    (∀ u ∈ get_event_urls_loop resolve hrefs acc, "/lineup".toList <:+ u) ∧
    (∀ u ∈ get_event_urls_loop resolve hrefs acc, '?' ∉ u) ∧
    (get_event_urls_loop resolve hrefs acc).Nodup := by
  induction hrefs generalizing acc with
  | nil => exact ⟨h1, h2, h3⟩
  | cons href rest ih =>
    have hstep : get_event_urls_loop resolve (href :: rest) acc
        = get_event_urls_loop resolve rest
            (if "/event/".toList <:+: href then
              (if canonicalize (resolve href) ∈ acc then acc
               else acc ++ [canonicalize (resolve href)])
             else acc) := rfl
    rw [hstep]
    by_cases hev : "/event/".toList <:+: href
    · rw [if_pos hev]
      by_cases hmem : canonicalize (resolve href) ∈ acc
      · rw [if_pos hmem]
        exact ih acc h1 h2 h3
      · rw [if_neg hmem]
        refine ih _ ?_ ?_ ?_
        · intro u hu
          rcases List.mem_append.1 hu with hu | hu
          · exact h1 u hu
          · rw [List.mem_singleton.1 hu]
            exact canonicalize_ends_lineup _
        · intro u hu
          rcases List.mem_append.1 hu with hu | hu
          · exact h2 u hu
          · rw [List.mem_singleton.1 hu]
            exact canonicalize_no_q _
        · refine h3.append (List.nodup_singleton _) ?_
          intro a ha hb
          rw [List.mem_singleton.1 hb] at ha
          exact hmem ha
    · rw [if_neg hev]
      exact ih acc h1 h2 h3

theorem eventStep_clean (resolve : PyStr → PyStr)
    (fetch : Nat → FetchOutcome ListingPage) (st : EventFetchSt) (attempt : Nat)
    (h1 : ∀ u ∈ st.event_urls, "/lineup".toList <:+ u)
    (h2 : ∀ u ∈ st.event_urls, '?' ∉ u)
    (h3 : st.event_urls.Nodup) :
    (∀ u ∈ (eventStep resolve fetch st attempt).event_urls, "/lineup".toList <:+ u) ∧
    (∀ u ∈ (eventStep resolve fetch st attempt).event_urls, '?' ∉ u) ∧
    (eventStep resolve fetch st attempt).event_urls.Nodup := by
  unfold eventStep
  by_cases hd : st.done
  · simp only [hd, if_pos]
    exact ⟨h1, h2, h3⟩
  · simp only [hd, Bool.false_eq_true, if_neg, not_false_eq_true]
    cases fetch attempt with
    | ok page => exact get_event_urls_loop_clean resolve _ _ h1 h2 h3
    | status code => exact ⟨h1, h2, h3⟩
    | netError => exact ⟨h1, h2, h3⟩

theorem eventRetry_clean (resolve : PyStr → PyStr)
    (fetch : Nat → FetchOutcome ListingPage) (attempts : List Nat)
    (st : EventFetchSt)
    (h1 : ∀ u ∈ st.event_urls, "/lineup".toList <:+ u)
    (h2 : ∀ u ∈ st.event_urls, '?' ∉ u)
    (h3 : st.event_urls.Nodup) :
    (∀ u ∈ (attempts.foldl (eventStep resolve fetch) st).event_urls,
        "/lineup".toList <:+ u) ∧
    (∀ u ∈ (attempts.foldl (eventStep resolve fetch) st).event_urls, '?' ∉ u) ∧
    (attempts.foldl (eventStep resolve fetch) st).event_urls.Nodup := by
  induction attempts generalizing st with
  | nil => exact ⟨h1, h2, h3⟩
  | cons a rest ih =>
    rw [List.foldl_cons]
    obtain ⟨g1, g2, g3⟩ := eventStep_clean resolve fetch st a h1 h2 h3
    exact ih _ g1 g2 g3

/-- Claim C3: every URL returned by the event-URL extractor ends in
`/lineup`, contains no query string (no `?` character), and the returned
list contains no duplicates — for every resolver, every fetch behaviour
and hence every set of anchor hrefs on the page. -/
theorem C3_event_urls_clean (resolve : PyStr → PyStr)
    (fetch : Nat → FetchOutcome ListingPage) :
    (∀ u ∈ (get_event_urls_from_page resolve fetch).1, "/lineup".toList <:+ u) ∧
    (∀ u ∈ (get_event_urls_from_page resolve fetch).1, '?' ∉ u) ∧
    (get_event_urls_from_page resolve fetch).1.Nodup := by
  unfold get_event_urls_from_page
  exact eventRetry_clean resolve fetch (List.range max_retries)
    { done := false, event_urls := [], trace := [] }
    (by intro u hu; cases hu) (by intro u hu; cases hu) List.nodup_nil

/-!  Claim C4: canonicalization idempotence.  -/

/-- Claim C4 counterexample: a URL that is already its own canonical form
can carry a doubled `/lineup` suffix.  The clean-up strips at most one
trailing `/lineup` and re-appends it, so `/event/1/lineup/lineup` maps to
itself while ending in `/lineup/lineup`, refuting the claim's "exactly one
`/lineup` suffix and never a doubled suffix". -/
theorem C4_doubled_suffix_counterexample :
    canonicalize ("/event/1/lineup/lineup".toList) = "/event/1/lineup/lineup".toList ∧
    "/lineup/lineup".toList <:+ "/event/1/lineup/lineup".toList := by
  constructor
  · decide
  · decide

/-- Claim C4 (amended): the URL canonicalization step is idempotent —
applying it to a URL that is already its own canonical form returns that
URL unchanged (only one trailing `/lineup` is stripped and exactly one is
re-appended) — and its result always ends with `/lineup`; however the
result carries a doubled `/lineup/lineup` ending exactly when the input
already did, so "never a doubled suffix" does not hold. -/
theorem C4_canonicalize_idempotent (u : PyStr) :
    canonicalize (canonicalize u) = canonicalize u ∧
    "/lineup".toList <:+ canonicalize u :=
  ⟨canonicalize_idempotent u, canonicalize_ends_lineup u⟩

/-!  Claim C8: the artist extractor merges its three heuristics by set
union.  The three heuristics are named individually below, read off the
same source lines the combined extractor models. -/

/-- Heuristic 1 (lines 122-126): trimmed texts of `link-block-target`
anchors, empties discarded. -/
def heuristic1 (page : EventPage) : Finset PyStr :=
  ((page.linkBlockTargetTexts.map pyStrip).filter (fun n => decide (n ≠ []))).toFinset

/-- Heuristic 2 (lines 129-133): trimmed texts of `event-detail-artists`
headings, empties discarded. -/
def heuristic2 (page : EventPage) : Finset PyStr :=
  ((page.headingTexts.map pyStrip).filter (fun n => decide (n ≠ []))).toFinset

/-- Heuristic 3 (lines 136-143): trimmed first-anchor texts of the lineup
container's list items, empties discarded. -/
def heuristic3 (page : EventPage) : Finset PyStr :=
  match page.lineupItems with
  | none => ∅
  | some items =>
      (((items.filterMap id).map pyStrip).filter (fun n => decide (n ≠ []))).toFinset

theorem mem_addArtist (s : Finset PyStr) (t x : PyStr) :
    x ∈ addArtist s t ↔ x ∈ s ∨ (pyStrip t = x ∧ x ≠ []) := by
  unfold addArtist
  by_cases h : pyStrip t = []
  · simp only [h, ne_eq, not_true_eq_false, if_false]
    constructor
    · exact Or.inl
    · rintro (hx | ⟨hx, hne⟩)
      · exact hx
      · exact absurd hx.symm hne
  · simp only [ne_eq, h, not_false_eq_true, if_true, Finset.mem_insert]
    constructor
    · rintro (rfl | hx)
      · exact Or.inr ⟨rfl, h⟩
      · exact Or.inl hx
    · rintro (hx | ⟨rfl, _⟩)
      · exact Or.inr hx
      · exact Or.inl rfl

theorem mem_foldl_addArtist (l : List PyStr) (s : Finset PyStr) (x : PyStr) :
    x ∈ l.foldl addArtist s ↔ x ∈ s ∨ (∃ t ∈ l, pyStrip t = x ∧ x ≠ []) := by
  induction l generalizing s with
  | nil => simp
  | cons t ts ih =>
    rw [List.foldl_cons, ih, mem_addArtist]
    simp only [List.mem_cons]
    constructor
    · rintro ((hx | ⟨hs, hne⟩) | ⟨t', ht', hs, hne⟩)
      · exact Or.inl hx
      · exact Or.inr ⟨t, Or.inl rfl, hs, hne⟩
      · exact Or.inr ⟨t', Or.inr ht', hs, hne⟩
    · rintro (hx | ⟨t', (rfl | ht'), hs, hne⟩)
      · exact Or.inl (Or.inl hx)
      · exact Or.inl (Or.inr ⟨hs, hne⟩)
      · exact Or.inr ⟨t', ht', hs, hne⟩

theorem mem_addArtistItem (s : Finset PyStr) (it : Option PyStr) (x : PyStr) :
    x ∈ addArtistItem s it ↔ x ∈ s ∨ (∃ t, it = some t ∧ pyStrip t = x ∧ x ≠ []) := by
  cases it with
  | none => simp [addArtistItem]
  | some t => simp [addArtistItem, mem_addArtist]

theorem mem_foldl_addArtistItem (items : List (Option PyStr)) (s : Finset PyStr)
    (x : PyStr) :
    x ∈ items.foldl addArtistItem s
      ↔ x ∈ s ∨ (∃ t ∈ items.filterMap id, pyStrip t = x ∧ x ≠ []) := by
  induction items generalizing s with
  | nil => simp
  | cons it its ih =>
    rw [List.foldl_cons, ih, mem_addArtistItem]
    cases it with
    | none => simp
    | some t =>
      simp only [List.filterMap_cons_some, id_eq, List.mem_cons, Option.some.injEq]
      aesop

theorem get_artists_from_page_eq_union (page : EventPage) :
    get_artists_from_page page
      = heuristic1 page ∪ heuristic2 page ∪ heuristic3 page := by
  ext x
  unfold get_artists_from_page heuristic1 heuristic2 heuristic3
  cases hli : page.lineupItems with
  | none =>
    simp only [hli, Finset.mem_union, List.mem_toFinset, List.mem_filter,
      List.mem_map, mem_foldl_addArtist, Finset.not_mem_empty, ne_eq,
      decide_eq_true_eq]
    constructor
    · rintro ((h | ⟨t, ht, hs, hne⟩) | ⟨t, ht, hs, hne⟩)
      · cases h
      · exact Or.inl (Or.inl ⟨⟨t, ht, hs⟩, by subst hs; exact hne⟩)
      · exact Or.inl (Or.inr ⟨⟨t, ht, hs⟩, by subst hs; exact hne⟩)
    · rintro ((⟨⟨t, ht, hs⟩, hne⟩ | ⟨⟨t, ht, hs⟩, hne⟩) | h)
      · exact Or.inl (Or.inr ⟨t, ht, hs, by subst hs; exact hne⟩)
      · exact Or.inr ⟨t, ht, hs, by subst hs; exact hne⟩
      · cases h
  | some items =>
    simp only [hli, Finset.mem_union, List.mem_toFinset, List.mem_filter,
      List.mem_map, mem_foldl_addArtist, mem_foldl_addArtistItem,
      Finset.not_mem_empty, ne_eq, decide_eq_true_eq]
    constructor
    · rintro (((h | ⟨t, ht, hs, hne⟩) | ⟨t, ht, hs, hne⟩) | ⟨t, ht, hs, hne⟩)
      · cases h
      · exact Or.inl (Or.inl ⟨⟨t, ht, hs⟩, by subst hs; exact hne⟩)
      · exact Or.inl (Or.inr ⟨⟨t, ht, hs⟩, by subst hs; exact hne⟩)
      · exact Or.inr ⟨⟨t, ht, hs⟩, by subst hs; exact hne⟩
    · rintro ((⟨⟨t, ht, hs⟩, hne⟩ | ⟨⟨t, ht, hs⟩, hne⟩) | ⟨⟨t, ht, hs⟩, hne⟩)
      · exact Or.inl (Or.inl (Or.inr ⟨t, ht, hs, by subst hs; exact hne⟩))
      · exact Or.inl (Or.inr ⟨t, ht, hs, by subst hs; exact hne⟩)
      · exact Or.inr ⟨t, ht, hs, by subst hs; exact hne⟩

/-- The concrete page of the claim's example: heuristic 1 sees
`Artist A`, heuristic 3 sees `Artist A` and `Artist B`. -/
def pageExample : EventPage :=
  { linkBlockTargetTexts := ["Artist A".toList]
    headingTexts := []
    lineupItems := some [some ("Artist A".toList), some ("Artist B".toList)] }

/-- Claim C8: for every event lineup page, the artist extractor's result
is the set union of its three heuristics (with empty and whitespace-only
texts discarded); in particular, on a page where heuristic 1 yields
`{Artist A}` and heuristic 3 yields `{Artist A, Artist B}`, the combined
result is exactly `{Artist A, Artist B}`. -/
theorem C8_union_of_heuristics :
    (∀ page : EventPage,
      get_artists_from_page page
        = heuristic1 page ∪ heuristic2 page ∪ heuristic3 page) ∧
    heuristic1 pageExample = {"Artist A".toList} ∧
    heuristic3 pageExample = {"Artist A".toList, "Artist B".toList} ∧
    get_artists_from_page pageExample = {"Artist A".toList, "Artist B".toList} := by
  refine ⟨get_artists_from_page_eq_union, ?_, ?_, ?_⟩
  · decide
  · decide
  · decide

/-!  Claim C5: retry exhaustion.  -/

/-- Keep only the fetch attempts and sleeps of a trace (discarding
diagnostic lines), to state how pauses interleave with attempts. -/
def RAction.isGetOrSleep : RAction → Bool
  | .httpGet => true
  | .sleepSec _ => true
  | .stderrLine => false

theorem eventStep_fail (resolve : PyStr → PyStr)
    (fetch : Nat → FetchOutcome ListingPage) (st : EventFetchSt) (attempt : Nat)
    (hd : st.done = false) (hf : (fetch attempt).isOk = false) :
    ∃ mid : List RAction, (∀ a ∈ mid, a = RAction.stderrLine) ∧ mid ≠ [] ∧
      eventStep resolve fetch st attempt =
        { done := false
          event_urls := st.event_urls
          trace := st.trace ++ [RAction.httpGet] ++ mid
            ++ (if attempt < max_retries - 1 then [RAction.sleepSec 5] else []) } := by
  unfold eventStep
  cases hfo : fetch attempt with
  | ok page =>
    rw [hfo] at hf
    simp [FetchOutcome.isOk] at hf
  | status code =>
    by_cases ha : attempt < max_retries - 1
    · exact ⟨[RAction.stderrLine], by simp, by simp, by simp [hd, ha]⟩
    · exact ⟨[RAction.stderrLine, RAction.stderrLine], by simp, by simp, by simp [hd, ha]⟩
  | netError =>
    by_cases ha : attempt < max_retries - 1
    · exact ⟨[RAction.stderrLine, RAction.stderrLine], by simp, by simp, by simp [hd, ha]⟩
    · exact ⟨[RAction.stderrLine, RAction.stderrLine], by simp, by simp, by simp [hd, ha]⟩

theorem eventRetry_all_fail (resolve : PyStr → PyStr)
    (fetch : Nat → FetchOutcome ListingPage)
    (h : ∀ i, i < max_retries → (fetch i).isOk = false) :
    ∃ m0 m1 m2 : List RAction,
      (∀ a ∈ m0, a = RAction.stderrLine) ∧ (∀ a ∈ m1, a = RAction.stderrLine) ∧
      (∀ a ∈ m2, a = RAction.stderrLine) ∧ m0 ≠ [] ∧ m1 ≠ [] ∧ m2 ≠ [] ∧
      get_event_urls_from_page resolve fetch =
        ([], [RAction.httpGet] ++ m0 ++ [RAction.sleepSec 5]
          ++ [RAction.httpGet] ++ m1 ++ [RAction.sleepSec 5]
          ++ [RAction.httpGet] ++ m2) := by
  obtain ⟨m0, hm0, hn0, e0⟩ := eventStep_fail resolve fetch
    { done := false, event_urls := [], trace := [] } 0 rfl (h 0 (by decide))
  obtain ⟨m1, hm1, hn1, e1⟩ := eventStep_fail resolve fetch
    (eventStep resolve fetch { done := false, event_urls := [], trace := [] } 0) 1
    (by rw [e0]) (h 1 (by decide))
  obtain ⟨m2, hm2, hn2, e2⟩ := eventStep_fail resolve fetch
    (eventStep resolve fetch
      (eventStep resolve fetch { done := false, event_urls := [], trace := [] } 0) 1) 2
    (by rw [e1]) (h 2 (by decide))
  refine ⟨m0, m1, m2, hm0, hm1, hm2, hn0, hn1, hn2, ?_⟩
  have hr : List.range max_retries = [0, 1, 2] := rfl
  unfold get_event_urls_from_page
  rw [hr]
  simp only [List.foldl_cons, List.foldl_nil]
  rw [e2, e1, e0]
  simp [max_retries, List.append_assoc]

theorem artistStep_fail (fetch : Nat → FetchOutcome EventPage) (verbose : Bool)
    (st : ArtistFetchSt) (attempt : Nat)
    (hd : st.done = false) (hf : (fetch attempt).isOk = false) :
    ∃ mid : List RAction, (∀ a ∈ mid, a = RAction.stderrLine) ∧
      (attempt = max_retries - 1 → mid ≠ []) ∧
      artistStep fetch verbose st attempt =
        { done := false
          artists := st.artists
          trace := st.trace ++ [RAction.httpGet] ++ mid
            ++ (if attempt < max_retries - 1 then [RAction.sleepSec 5] else []) } := by
  unfold artistStep
  cases hfo : fetch attempt with
  | ok page =>
    rw [hfo] at hf
    simp [FetchOutcome.isOk] at hf
  | status code =>
    by_cases ha : attempt < max_retries - 1
    · refine ⟨if verbose || attempt = max_retries - 1 then [RAction.stderrLine] else [],
        ?_, ?_, ?_⟩
      · intro a haa
        split at haa
        · simpa using haa
        · cases haa
      · intro h2
        omega
      · simp [hd, ha]
    · refine ⟨(if verbose || attempt = max_retries - 1 then [RAction.stderrLine] else [])
        ++ [RAction.stderrLine], ?_, ?_, ?_⟩
      · intro a haa
        rcases List.mem_append.1 haa with haa | haa
        · split at haa
          · simpa using haa
          · cases haa
        · simpa using haa
      · intro _
        simp
      · simp [hd, ha]
  | netError =>
    by_cases ha : attempt < max_retries - 1
    · refine ⟨(if verbose || attempt = max_retries - 1 then [RAction.stderrLine] else [])
        ++ (if verbose then [RAction.stderrLine] else []), ?_, ?_, ?_⟩
      · intro a haa
        rcases List.mem_append.1 haa with haa | haa
        all_goals split at haa
        all_goals simp_all
      · intro h2
        omega
      · simp [hd, ha]
    · refine ⟨(if verbose || attempt = max_retries - 1 then [RAction.stderrLine] else [])
        ++ (if verbose then [RAction.stderrLine] else []), ?_, ?_, ?_⟩
      · intro a haa
        rcases List.mem_append.1 haa with haa | haa
        all_goals split at haa
        all_goals simp_all
      · intro h2
        simp [h2]
      · simp [hd, ha]

theorem artistRetry_all_fail (fetch : Nat → FetchOutcome EventPage) (verbose : Bool)
    (h : ∀ i, i < max_retries → (fetch i).isOk = false) :
    ∃ m0 m1 m2 : List RAction,
      (∀ a ∈ m0, a = RAction.stderrLine) ∧ (∀ a ∈ m1, a = RAction.stderrLine) ∧
      (∀ a ∈ m2, a = RAction.stderrLine) ∧ m2 ≠ [] ∧
      get_artists_from_event fetch verbose =
        (∅, [RAction.httpGet] ++ m0 ++ [RAction.sleepSec 5]
          ++ [RAction.httpGet] ++ m1 ++ [RAction.sleepSec 5]
          ++ [RAction.httpGet] ++ m2) := by
  obtain ⟨m0, hm0, _, e0⟩ := artistStep_fail fetch verbose
    { done := false, artists := ∅, trace := [] } 0 rfl (h 0 (by decide))
  obtain ⟨m1, hm1, _, e1⟩ := artistStep_fail fetch verbose
    (artistStep fetch verbose { done := false, artists := ∅, trace := [] } 0) 1
    (by rw [e0]) (h 1 (by decide))
  obtain ⟨m2, hm2, hn2, e2⟩ := artistStep_fail fetch verbose
    (artistStep fetch verbose
      (artistStep fetch verbose { done := false, artists := ∅, trace := [] } 0) 1) 2
    (by rw [e1]) (h 2 (by decide))
  refine ⟨m0, m1, m2, hm0, hm1, hm2, hn2 rfl, ?_⟩
  have hr : List.range max_retries = [0, 1, 2] := rfl
  unfold get_artists_from_event
  rw [hr]
  simp only [List.foldl_cons, List.foldl_nil]
  rw [e2, e1, e0]
  simp [max_retries, List.append_assoc]

theorem failTrace_filter (m0 m1 m2 : List RAction)
    (hm0 : ∀ a ∈ m0, a = RAction.stderrLine)
    (hm1 : ∀ a ∈ m1, a = RAction.stderrLine)
    (hm2 : ∀ a ∈ m2, a = RAction.stderrLine) :
    ([RAction.httpGet] ++ m0 ++ [RAction.sleepSec 5]
      ++ [RAction.httpGet] ++ m1 ++ [RAction.sleepSec 5]
      ++ [RAction.httpGet] ++ m2).filter RAction.isGetOrSleep
    = [RAction.httpGet, RAction.sleepSec 5, RAction.httpGet, RAction.sleepSec 5,
       RAction.httpGet] := by
  have f0 : m0.filter RAction.isGetOrSleep = [] := by
    rw [List.filter_eq_nil_iff]
    intro a haa
    rw [hm0 a haa]
    simp [RAction.isGetOrSleep]
  have f1 : m1.filter RAction.isGetOrSleep = [] := by
    rw [List.filter_eq_nil_iff]
    intro a haa
    rw [hm1 a haa]
    simp [RAction.isGetOrSleep]
  have f2 : m2.filter RAction.isGetOrSleep = [] := by
    rw [List.filter_eq_nil_iff]
    intro a haa
    rw [hm2 a haa]
    simp [RAction.isGetOrSleep]
  simp [List.filter_append, f0, f1, f2, RAction.isGetOrSleep]

theorem failTrace_count_get (m0 m1 m2 : List RAction)
    (hm0 : ∀ a ∈ m0, a = RAction.stderrLine)
    (hm1 : ∀ a ∈ m1, a = RAction.stderrLine)
    (hm2 : ∀ a ∈ m2, a = RAction.stderrLine) :
    ([RAction.httpGet] ++ m0 ++ [RAction.sleepSec 5]
      ++ [RAction.httpGet] ++ m1 ++ [RAction.sleepSec 5]
      ++ [RAction.httpGet] ++ m2).count RAction.httpGet = 3 := by
  have c0 : m0.count RAction.httpGet = 0 :=
    List.count_eq_zero.mpr fun hmem => by
      have := hm0 _ hmem
      cases this
  have c1 : m1.count RAction.httpGet = 0 :=
    List.count_eq_zero.mpr fun hmem => by
      have := hm1 _ hmem
      cases this
  have c2 : m2.count RAction.httpGet = 0 :=
    List.count_eq_zero.mpr fun hmem => by
      have := hm2 _ hmem
      cases this
  simp [List.count_append, c0, c1, c2, List.count_singleton, List.count_cons]

theorem failTrace_count_err (m0 m1 m2 : List RAction)
    (hm2 : ∀ a ∈ m2, a = RAction.stderrLine) (hn2 : m2 ≠ []) :
    0 < ([RAction.httpGet] ++ m0 ++ [RAction.sleepSec 5]
      ++ [RAction.httpGet] ++ m1 ++ [RAction.sleepSec 5]
      ++ [RAction.httpGet] ++ m2).count RAction.stderrLine := by
  apply List.count_pos_iff.mpr
  obtain ⟨a, haa⟩ := List.exists_mem_of_ne_nil m2 hn2
  have he := hm2 a haa
  subst he
  simp only [List.mem_append]
  tauto

/-- Claim C5: for every URL whose fetch always yields a non-200 status or
a network-level failure, each fetcher makes exactly 3 attempts with a
fixed 5-second pause between consecutive attempts (so exactly 2 pauses:
the attempt/sleep skeleton of the trace is GET, sleep 5, GET, sleep 5,
GET), then returns an empty result — an empty URL list resp. an empty
artist set — without raising, having written at least one diagnostic line
to the error stream. -/
theorem C5_retry_exhaustion (resolve : PyStr → PyStr)
    (fetchE : Nat → FetchOutcome ListingPage)
    (fetchA : Nat → FetchOutcome EventPage) (verbose : Bool)
    (hE : ∀ i, i < max_retries → (fetchE i).isOk = false)
    (hA : ∀ i, i < max_retries → (fetchA i).isOk = false) :
    ((get_event_urls_from_page resolve fetchE).1 = [] ∧
      (get_event_urls_from_page resolve fetchE).2.filter RAction.isGetOrSleep
        = [RAction.httpGet, RAction.sleepSec 5, RAction.httpGet,
           RAction.sleepSec 5, RAction.httpGet] ∧
      (get_event_urls_from_page resolve fetchE).2.count RAction.httpGet = 3 ∧
      0 < (get_event_urls_from_page resolve fetchE).2.count RAction.stderrLine) ∧
    ((get_artists_from_event fetchA verbose).1 = ∅ ∧
      (get_artists_from_event fetchA verbose).2.filter RAction.isGetOrSleep
        = [RAction.httpGet, RAction.sleepSec 5, RAction.httpGet,
           RAction.sleepSec 5, RAction.httpGet] ∧
      (get_artists_from_event fetchA verbose).2.count RAction.httpGet = 3 ∧
      0 < (get_artists_from_event fetchA verbose).2.count RAction.stderrLine) := by
  obtain ⟨m0, m1, m2, hm0, hm1, hm2, _, _, hn2, he⟩ := eventRetry_all_fail resolve fetchE hE
  obtain ⟨k0, k1, k2, hk0, hk1, hk2, hkn2, hak⟩ := artistRetry_all_fail fetchA verbose hA
  constructor
  · rw [he]
    exact ⟨rfl, failTrace_filter m0 m1 m2 hm0 hm1 hm2,
      failTrace_count_get m0 m1 m2 hm0 hm1 hm2,
      failTrace_count_err m0 m1 m2 hm2 hn2⟩
  · rw [hak]
    exact ⟨rfl, failTrace_filter k0 k1 k2 hk0 hk1 hk2,
      failTrace_count_get k0 k1 k2 hk0 hk1 hk2,
      failTrace_count_err k0 k1 k2 hk2 hkn2⟩

/-- Witness for claim C5 at a concrete always-404 fetch behaviour. -/
theorem C5_retry_exhaustion_witness :
    ((get_event_urls_from_page (fun u => u)
        (fun _ => FetchOutcome.status 404)).1 = [] ∧
      (get_event_urls_from_page (fun u => u)
        (fun _ => FetchOutcome.status 404)).2.filter RAction.isGetOrSleep
        = [RAction.httpGet, RAction.sleepSec 5, RAction.httpGet,
           RAction.sleepSec 5, RAction.httpGet] ∧
      (get_event_urls_from_page (fun u => u)
        (fun _ => FetchOutcome.status 404)).2.count RAction.httpGet = 3 ∧
      0 < (get_event_urls_from_page (fun u => u)
        (fun _ => FetchOutcome.status 404)).2.count RAction.stderrLine) ∧
    ((get_artists_from_event (fun _ => FetchOutcome.status 404) false).1 = ∅ ∧
      (get_artists_from_event (fun _ => FetchOutcome.status 404) false).2.filter
        RAction.isGetOrSleep
        = [RAction.httpGet, RAction.sleepSec 5, RAction.httpGet,
           RAction.sleepSec 5, RAction.httpGet] ∧
      (get_artists_from_event (fun _ => FetchOutcome.status 404) false).2.count
        RAction.httpGet = 3 ∧
      0 < (get_artists_from_event (fun _ => FetchOutcome.status 404) false).2.count
        RAction.stderrLine) :=
  C5_retry_exhaustion (fun u => u) (fun _ => FetchOutcome.status 404)
    (fun _ => FetchOutcome.status 404) false (fun _ _ => rfl) (fun _ _ => rfl)

/-!  Claim C7: the event-crawl orchestrator `get_all_event_urls`
(lines 172-207).  The per-page fetch+extract pipeline is abstracted as a
function `extract`: `extract none` is the URL list extracted from the
user's main events page, `extract (some y)` the list from year `y`'s
page.  The progress prints and the 1-second politeness sleeps are not
modelled here. -/

/-- Python `range(a, b)`: the integers `a, a+1, ..., b-1` in order. -/
def pyRange (a b : Int) : List Int :=
  (List.range (b - a).toNat).map (fun i => a + i)

/-- `get_all_event_urls` (lines 172-207): extract from the main page,
then for each year in `range(start_year, end_year + 1)` extract from that
year's page and append only the URLs not already accumulated
(`new_urls = [url for url in event_urls if url not in all_event_urls]`). -/
def get_all_event_urls (extract : Option Int → List PyStr)
    (start_year end_year : Int) : List PyStr :=
  let all_event_urls := extract none
  (pyRange start_year (end_year + 1)).foldl
    (fun all year =>
      let event_urls := extract (some year)
      let new_urls := event_urls.filter (fun url => decide (url ∉ all))
      all ++ new_urls)
    all_event_urls

/-- Specification-side definition: keep the first occurrence of every
string, in order (first-seen-order deduplication). -/
def firstSeen (l : List PyStr) : List PyStr :=
  l.foldl (fun acc u => if u ∈ acc then acc else acc ++ [u]) []

theorem foldl_firstSeen_step_of_nodup (ys : List PyStr) (acc : List PyStr)
    (h : ys.Nodup) :
    ys.foldl (fun acc u => if u ∈ acc then acc else acc ++ [u]) acc
      = acc ++ ys.filter (fun u => decide (u ∉ acc)) := by
  induction ys generalizing acc with
  | nil => simp
  | cons u t ih =>
    rw [List.foldl_cons]
    have hu_t : u ∉ t := (List.nodup_cons.1 h).1
    have ht : t.Nodup := (List.nodup_cons.1 h).2
    by_cases hu : u ∈ acc
    · rw [if_pos hu, ih acc ht, List.filter_cons]
      simp [hu]
    · have hfe : t.filter (fun x => decide (x ∉ acc ++ [u]))
          = t.filter (fun x => decide (x ∉ acc)) := by
        apply List.filter_congr
        intro x hx
        have hxu : x ≠ u := fun hxx => hu_t (hxx ▸ hx)
        simp [List.mem_append, hxu]
      rw [if_neg hu, ih (acc ++ [u]) ht, hfe, List.filter_cons]
      simp [hu, List.append_assoc]

theorem foldl_firstSeen_nodup (ys : List PyStr) (acc : List PyStr)
    (h : acc.Nodup) :
    (ys.foldl (fun acc u => if u ∈ acc then acc else acc ++ [u]) acc).Nodup := by
  induction ys generalizing acc with
  | nil => exact h
  | cons u t ih =>
    rw [List.foldl_cons]
    by_cases hu : u ∈ acc
    · rw [if_pos hu]
      exact ih acc h
    · rw [if_neg hu]
      refine ih _ (h.append (List.nodup_singleton u) ?_)
      intro a ha hb
      rw [List.mem_singleton.1 hb] at ha
      exact hu ha

theorem firstSeen_nodup (l : List PyStr) : (firstSeen l).Nodup :=
  foldl_firstSeen_nodup l [] List.nodup_nil

theorem yearloop_prefix (extract : Option Int → List PyStr) (ys : List Int)
    (acc : List PyStr) :
    acc <+: ys.foldl
      (fun all year =>
        all ++ (extract (some year)).filter (fun url => decide (url ∉ all))) acc := by
  induction ys generalizing acc with
  | nil => exact List.prefix_rfl
  | cons y t ih =>
    rw [List.foldl_cons]
    exact (List.prefix_append acc _).trans (ih _)

theorem yearloop_eq_firstSeen_fold (extract : Option Int → List PyStr)
    (ys : List Int) (acc : List PyStr)
    (h : ∀ y : Int, (extract (some y)).Nodup) :
    ys.foldl
      (fun all year =>
        all ++ (extract (some year)).filter (fun url => decide (url ∉ all))) acc
    = (ys.flatMap (fun y => extract (some y))).foldl
        (fun acc u => if u ∈ acc then acc else acc ++ [u]) acc := by
  induction ys generalizing acc with
  | nil => simp
  | cons y t ih =>
    rw [List.foldl_cons, ih _, List.flatMap_cons, List.foldl_append,
      foldl_firstSeen_step_of_nodup (extract (some y)) acc (h y)]

/-- Claim C7: for every per-page extraction behaviour with duplicate-free
per-page URL lists (which `get_event_urls_from_page` guarantees, claim
C3), the crawl orchestrator returns the main listing page's URLs followed
by each year's URLs for every year of the inclusive ascending range
`[start_year, end_year]`, keeping a URL only on its first appearance
(exact string equality against the accumulated list): the result is
exactly the first-seen-order deduplication of the concatenated page
extractions, is duplicate-free, and starts with the main page's list. -/
theorem C7_year_crawl (extract : Option Int → List PyStr)
    (start_year end_year : Int) (h : ∀ p, (extract p).Nodup) :
    get_all_event_urls extract start_year end_year
      = firstSeen (extract none
          ++ (pyRange start_year (end_year + 1)).flatMap (fun y => extract (some y))) ∧
    (get_all_event_urls extract start_year end_year).Nodup ∧
    extract none <+: get_all_event_urls extract start_year end_year := by
  have hmain :
      get_all_event_urls extract start_year end_year
        = (pyRange start_year (end_year + 1)).foldl
            (fun all year =>
              all ++ (extract (some year)).filter (fun url => decide (url ∉ all)))
            (extract none) := rfl
  have hfs : firstSeen (extract none
        ++ (pyRange start_year (end_year + 1)).flatMap (fun y => extract (some y)))
      = ((pyRange start_year (end_year + 1)).flatMap (fun y => extract (some y))).foldl
          (fun acc u => if u ∈ acc then acc else acc ++ [u]) (extract none) := by
    unfold firstSeen
    rw [List.foldl_append, foldl_firstSeen_step_of_nodup (extract none) [] (h none)]
    simp
  have heq : get_all_event_urls extract start_year end_year
      = firstSeen (extract none
          ++ (pyRange start_year (end_year + 1)).flatMap (fun y => extract (some y))) := by
    rw [hmain, hfs]
    exact yearloop_eq_firstSeen_fold extract _ (extract none) (fun y => h (some y))
  refine ⟨heq, ?_, ?_⟩
  · rw [heq]
    exact firstSeen_nodup _
  · rw [hmain]
    exact yearloop_prefix extract _ _

/-- A concrete extraction behaviour for the claim C7 witness: the main
page yields one URL, every year page yields that URL plus a new one. -/
def extractW : Option Int → List PyStr :=
  fun p => match p with
  | none => [['a']]
  | some _ => [['a'], ['b']]

/-- Witness for claim C7 at the concrete behaviour `extractW`. -/
theorem C7_year_crawl_witness :
    get_all_event_urls extractW 2005 2006
      = firstSeen (extractW none
          ++ (pyRange 2005 (2006 + 1)).flatMap (fun y => extractW (some y))) ∧
    (get_all_event_urls extractW 2005 2006).Nodup ∧
    extractW none <+: get_all_event_urls extractW 2005 2006 :=
  C7_year_crawl extractW 2005 2006 (by intro p; cases p <;> simp [extractW])

/-!  Claim C6: the sort key of `sort_artists` (lines 210-227). -/

/-- `sort_key` (lines 221-225): if `ignore_the` is set and
`artist.lower().startswith('the ')`, the key is `artist[4:].lower()`,
otherwise `artist.lower()`.  Note the guard has no length condition. -/
def sort_key (ignore_the : Bool) (artist : PyStr) : PyStr :=
  if ignore_the ∧ "the ".toList <+: pyLower artist
  then pyLower (artist.drop 4)
  else pyLower artist

/-- `sort_artists` (lines 210-227): `sorted(artists, key=sort_key)`.
Python's `sorted` is a stable ascending sort comparing keys
lexicographically; the set argument is modelled by the list of its
iteration order, and the stable sort by `List.mergeSort`. -/
def sort_artists (artists : List PyStr) (ignore_the : Bool) : List PyStr :=
  artists.mergeSort
    (fun a b => lexLe (sort_key ignore_the a) (sort_key ignore_the b))

theorem lexLe_trans :
    ∀ (a b c : PyStr), lexLe a b = true → lexLe b c = true → lexLe a c = true := by
  intro a
  induction a with
  | nil =>
    intro b c _ _
    rfl
  | cons x xs ih =>
    intro b c h1 h2
    cases b with
    | nil => simp [lexLe] at h1
    | cons y ys =>
      cases c with
      | nil => simp [lexLe] at h2
      | cons z zs =>
        simp only [lexLe] at h1 h2 ⊢
        by_cases hxy : x = y
        · subst hxy
          rw [if_pos rfl] at h1
          by_cases hxz : x = z
          · subst hxz
            rw [if_pos rfl] at h2 ⊢
            exact ih ys zs h1 h2
          · rw [if_neg hxz] at h2 ⊢
            exact h2
        · by_cases hyz : y = z
          · subst hyz
            rw [if_neg hxy] at h1 ⊢
            exact h1
          · rw [if_neg hxy] at h1
            rw [if_neg hyz] at h2
            have hx : x < y := of_decide_eq_true h1
            have hy : y < z := of_decide_eq_true h2
            have hxz : x < z := lt_trans hx hy
            rw [if_neg (ne_of_lt hxz)]
            exact decide_eq_true hxz

theorem lexLe_total : ∀ (a b : PyStr), (lexLe a b || lexLe b a) = true := by
  intro a
  induction a with
  | nil =>
    intro b
    simp [lexLe]
  | cons x xs ih =>
    intro b
    cases b with
    | nil => simp [lexLe]
    | cons y ys =>
      simp only [lexLe]
      by_cases hxy : x = y
      · subst hxy
        rw [if_pos rfl, if_pos rfl]
        exact ih ys
      · rw [if_neg hxy, if_neg (Ne.symm hxy)]
        rcases lt_or_gt_of_ne hxy with h | h
        · simp [h]
        · simp [h]

/-- The sort key exactly as claim C6 words it: the lowercased name,
except that when the ignore-article option is set and the name
case-insensitively starts with `the ` followed by more text, the
lowercased name with that 4-character prefix dropped.  Stated from the
claim only, to compare against the implementation's `sort_key`. -/
def sort_key_claimed (ignore_the : Bool) (artist : PyStr) : PyStr :=
  if ignore_the ∧ "the ".toList <+: pyLower artist ∧ 4 < artist.length
  then (pyLower artist).drop 4
  else pyLower artist

/-- Claim C6 counterexample: on the name `"The "` (which starts with
`the ` case-insensitively but is not followed by more text) with the
ignore-article option set, the implementation's key is the empty string
`artist[4:].lower() = ""`, while the claim's key is the full lowercased
name `"the "`; so the claim's "followed by more text" qualifier does not
match the code, which has no length guard. -/
theorem C6_sort_key_counterexample :
    sort_key true ("The ".toList) = [] ∧
    sort_key_claimed true ("The ".toList) = "the ".toList ∧
    sort_key true ("The ".toList) ≠ sort_key_claimed true ("The ".toList) := by
  refine ⟨by decide, by decide, by decide⟩

/-- Claim C6 (amended): the sort key is the lowercased name, except that
when the ignore-article option is set and the name case-insensitively
starts with `the ` — whether or not more text follows — the key is the
lowercased name with its first 4 characters dropped; `sort_artists` is a
stable alphabetical sort on this key: its output is a permutation of the
input, sorted under the key order, and any key-ordered pair keeps its
relative order. -/
theorem C6_sort_key_and_stable_sort :
    (∀ (ignore_the : Bool) (artist : PyStr),
      sort_key ignore_the artist
        = if ignore_the ∧ "the ".toList <+: pyLower artist
          then (pyLower artist).drop 4
          else pyLower artist) ∧
    (∀ (ignore_the : Bool) (artists : List PyStr),
      List.Perm (sort_artists artists ignore_the) artists ∧
      (sort_artists artists ignore_the).Pairwise
        (fun a b => lexLe (sort_key ignore_the a) (sort_key ignore_the b) = true)) ∧
    (∀ (ignore_the : Bool) (artists : List PyStr) (a b : PyStr),
      lexLe (sort_key ignore_the a) (sort_key ignore_the b) = true →
      List.Sublist [a, b] artists →
      List.Sublist [a, b] (sort_artists artists ignore_the)) := by
  refine ⟨?_, ?_, ?_⟩
  · intro ignore_the artist
    unfold sort_key
    split
    · exact List.map_drop Char.toLower artist 4
    · rfl
  · intro ignore_the artists
    unfold sort_artists
    constructor
    · exact List.mergeSort_perm artists _
    · exact @List.sorted_mergeSort _
        (fun a b => lexLe (sort_key ignore_the a) (sort_key ignore_the b))
        (fun a b c h1 h2 => lexLe_trans _ _ _ h1 h2)
        (fun a b => lexLe_total _ _) artists
  · intro ignore_the artists a b hab hsub
    unfold sort_artists
    exact List.pair_sublist_mergeSort
      (fun x y z h1 h2 => lexLe_trans _ _ _ h1 h2)
      (fun x y => lexLe_total _ _) hab hsub

/-- Witness for claim C6: the stability clause applied to a concrete
key-ordered pair within a concrete list. -/
theorem C6_sort_key_and_stable_sort_witness :
    List.Sublist ["ABBA".toList, "Zebra".toList]
      (sort_artists ["ABBA".toList, "Zebra".toList] true) :=
  C6_sort_key_and_stable_sort.2.2 true ["ABBA".toList, "Zebra".toList]
    ("ABBA".toList) ("Zebra".toList) (by decide) (List.Sublist.refl _)

/-!  Claims C1 and C10: the grouped formatter
`format_output_with_headings` (lines 230-281). -/

/-- Python `artist[i]`: `some` character when `i` is in range, `none`
standing for the `IndexError` raised otherwise. -/
def pyGet (s : PyStr) (i : Nat) : Option Char := s[i]?

/-- The determining-character computation of lines 247-251 (repeated
verbatim at lines 268-271), with Python's fallible indexing explicit:
`check_char = artist[0].upper()`, overridden by `artist[4].upper()` when
`ignore_the` is set, `artist.lower().startswith('the ')` and
`len(artist) > 4`.  A `none` result models a raised `IndexError`. -/
def check_charQ (ignore_the : Bool) (artist : PyStr) : Option Char :=
  match pyGet artist 0 with
  | none => none
  | some c0 =>
    if ignore_the ∧ "the ".toList <+: pyLower artist ∧ 4 < artist.length then
      match pyGet artist 4 with
      | none => none
      | some c4 => some (pyToUpper c4)
    else some (pyToUpper c0)

/-- Total form of the determining character, used by the formatter model;
it agrees with `check_charQ` whenever the name is non-empty
(theorem `C10_formatter_indexing_total`). -/
def check_char (ignore_the : Bool) (artist : PyStr) : Char :=
  if ignore_the ∧ "the ".toList <+: pyLower artist ∧ 4 < artist.length
  then pyToUpper (artist.getD 4 ' ')
  else pyToUpper (artist.headD ' ')

/-- The `numbers_symbols` bucket (lines 245-254): names whose determining
character is not alphabetic. -/
def numbers_symbols (ignore_the : Bool) (sorted_artists : List PyStr) : List PyStr :=
  sorted_artists.filter (fun artist => !(pyIsAlpha (check_char ignore_the artist)))

/-- The `artists_for_letter` bucket of one letter (lines 266-274): names
whose determining character equals that letter. -/
def artists_for_letter (ignore_the : Bool) (sorted_artists : List PyStr)
    (letter : Char) : List PyStr :=
  sorted_artists.filter (fun artist => decide (check_char ignore_the artist = letter))

/-- `'ABCDEFGHIJKLMNOPQRSTUVWXYZ'` (line 262). -/
def upperLetters : PyStr := "ABCDEFGHIJKLMNOPQRSTUVWXYZ".toList

/-- `format_output_with_headings` (lines 230-281): the
numbers-and-symbols section, then one section per letter `A`-`Z`, each a
heading line followed by the bucket's members or a `(none)` placeholder. -/
def format_output_with_headings (sorted_artists : List PyStr)
    (ignore_the : Bool) : List PyStr :=
  let ns := numbers_symbols ignore_the sorted_artists
  ("\n=== # (Numbers & Symbols) ===".toList
      :: (if ns = [] then ["(none)".toList] else ns))
    ++ upperLetters.flatMap (fun letter =>
        let afl := artists_for_letter ignore_the sorted_artists letter
        ("\n=== ".toList ++ [letter] ++ " ===".toList)
          :: (if afl = [] then ["(none)".toList] else afl))

theorem check_charQ_eq (ignore_the : Bool) (a : PyStr) (hne : a ≠ []) :
    check_charQ ignore_the a = some (check_char ignore_the a) := by
  unfold check_charQ check_char pyGet
  cases a with
  | nil => exact absurd rfl hne
  | cons c0 rest =>
    simp only [List.getElem?_cons_zero]
    split
    · rename_i hguard
      have h4 : 4 < (c0 :: rest).length := hguard.2.2
      rw [List.getElem?_eq_getElem h4]
      rw [List.getD_eq_getElem?_getD, List.getElem?_eq_getElem h4]
      rfl
    · rfl

/-- Claim C10: for every list of non-empty artist names the formatter's
character accesses are total: `artist[0]` is always in range and
`artist[4]` is only read under the `len(artist) > 4` guard, so the
determining-character computation (`check_charQ`, Option-valued to model
`IndexError`) never fails, and agrees with the total `check_char` the
formatter model uses. -/
theorem C10_formatter_indexing_total (sorted_artists : List PyStr)
    (ignore_the : Bool) (h : ∀ a ∈ sorted_artists, a ≠ []) :
    ∀ a ∈ sorted_artists,
      (check_charQ ignore_the a).isSome = true ∧
      check_charQ ignore_the a = some (check_char ignore_the a) :=
  fun a ha =>
    ⟨by rw [check_charQ_eq ignore_the a (h a ha)]; rfl,
     check_charQ_eq ignore_the a (h a ha)⟩

/-- Witness for claim C10 at a concrete one-element list. -/
theorem C10_formatter_indexing_total_witness :
    (check_charQ true ("The Who".toList)).isSome = true ∧
    check_charQ true ("The Who".toList)
      = some (check_char true ("The Who".toList)) :=
  C10_formatter_indexing_total ["The Who".toList] true (by decide)
    ("The Who".toList) (by decide)

/-- Claim C1 counterexample: the name `Édith` has an alphabetic
determining character (Python's Unicode `isalpha` accepts `É`), so it is
not placed in the Numbers & Symbols bucket, yet `É` equals none of the 26
letters `A`-`Z`, so it is in no letter bucket either: the name appears in
none of the 27 buckets, and indeed nowhere in the formatter's output. -/
theorem C1_bucket_partition_counterexample :
    numbers_symbols false ["Édith".toList] = [] ∧
    (∀ letter ∈ upperLetters,
      artists_for_letter false ["Édith".toList] letter = []) ∧
    "Édith".toList ∉ format_output_with_headings ["Édith".toList] false := by
  refine ⟨by decide, by decide, by decide⟩

/-- Claim C1 (amended): for every list of non-empty artist names, a name
whose determining character is not alphabetic lands in the Numbers &
Symbols bucket and in no letter bucket; a name whose determining
character is alphabetic and among `A`-`Z` lands in exactly that one
letter bucket and not in Numbers & Symbols; but a name whose determining
character is alphabetic yet outside `A`-`Z` (a non-ASCII letter) lands in
no bucket at all, so the 27 buckets are not exhaustive.  Every empty
letter bucket makes the formatter emit a `(none)` line. -/
theorem C1_bucket_partition (sorted_artists : List PyStr) (ignore_the : Bool)
    (_h : ∀ a ∈ sorted_artists, a ≠ []) :
    (∀ a ∈ sorted_artists,
      (pyIsAlpha (check_char ignore_the a) = false →
        a ∈ numbers_symbols ignore_the sorted_artists ∧
        ∀ letter ∈ upperLetters,
          a ∉ artists_for_letter ignore_the sorted_artists letter) ∧
      (pyIsAlpha (check_char ignore_the a) = true →
        check_char ignore_the a ∈ upperLetters →
        a ∉ numbers_symbols ignore_the sorted_artists ∧
        a ∈ artists_for_letter ignore_the sorted_artists (check_char ignore_the a) ∧
        ∀ letter ∈ upperLetters,
          a ∈ artists_for_letter ignore_the sorted_artists letter →
          letter = check_char ignore_the a) ∧
      (pyIsAlpha (check_char ignore_the a) = true →
        check_char ignore_the a ∉ upperLetters →
        a ∉ numbers_symbols ignore_the sorted_artists ∧
        ∀ letter ∈ upperLetters,
          a ∉ artists_for_letter ignore_the sorted_artists letter)) ∧
    (∀ letter ∈ upperLetters,
      artists_for_letter ignore_the sorted_artists letter = [] →
      "(none)".toList ∈ format_output_with_headings sorted_artists ignore_the) := by
  have hAZ : ∀ c ∈ upperLetters, pyIsAlpha c = true := by decide
  refine ⟨?_, ?_⟩
  · intro a ha
    refine ⟨?_, ?_, ?_⟩
    · intro hfalse
      constructor
      · simp [numbers_symbols, List.mem_filter, ha, hfalse]
      · intro letter hl hmem
        have heq : check_char ignore_the a = letter :=
          of_decide_eq_true (List.mem_filter.1 hmem).2
        rw [heq] at hfalse
        rw [hAZ letter hl] at hfalse
        cases hfalse
    · intro htrue _
      refine ⟨?_, ?_, ?_⟩
      · simp [numbers_symbols, List.mem_filter, htrue]
      · simp [artists_for_letter, List.mem_filter, ha]
      · intro letter _ hmem
        exact (of_decide_eq_true (List.mem_filter.1 hmem).2).symm
    · intro _ hnot
      constructor
      · rename_i htrue
        simp [numbers_symbols, List.mem_filter, htrue]
      · intro letter hl hmem
        have heq : check_char ignore_the a = letter :=
          of_decide_eq_true (List.mem_filter.1 hmem).2
        rw [← heq] at hl
        exact hnot hl
  · intro letter hl hempty
    unfold format_output_with_headings
    apply List.mem_append.2
    right
    apply List.mem_flatMap.2
    refine ⟨letter, hl, ?_⟩
    simp [hempty]

/-- Witness for claim C1 at a concrete list: `Abba` lands in the bucket
of its determining character. -/
theorem C1_bucket_partition_witness :
    "Abba".toList
      ∈ artists_for_letter false ["Abba".toList]
          (check_char false ("Abba".toList)) :=
  (((C1_bucket_partition ["Abba".toList] false (by decide)).1
    ("Abba".toList) (by decide)).2.1 (by decide) (by decide)).2.1

/-!  Claims C2 and C9: `main`'s artist-harvest stage and zero-event exit
(lines 284-386). -/

/-- An observable step of `main`'s harvest stage: one
`get_artists_from_event(event_url)` call (which performs the fetch and
extraction), or one `time.sleep(s)`. -/
inductive HAction where
  | extractEvent (url : PyStr)
  | sleepSec (s : ℚ)
  deriving DecidableEq

/-- State threaded through `main`'s harvest loops: the global
`all_artists` set, the `failed_count` of zero-artist events, and the
trace of observable steps. -/
structure HarvestSt where
  all_artists : Finset PyStr
  failed_count : Nat
  trace : List HAction

/-- One iteration of the first harvest loop (lines 333-347): call
`get_artists_from_event` (abstracted as `get_artists`), union a
non-empty result into the global set — otherwise increment
`failed_count` — then sleep 0.5 seconds. -/
def harvestStep1 (get_artists : PyStr → Finset PyStr) (st : HarvestSt)
    (event_url : PyStr) : HarvestSt :=
  let artists := get_artists event_url
  if artists ≠ ∅ then
    { all_artists := st.all_artists ∪ artists
      failed_count := st.failed_count
      trace := st.trace ++ [HAction.extractEvent event_url, HAction.sleepSec (1/2)] }
  else
    { all_artists := st.all_artists
      failed_count := st.failed_count + 1
      trace := st.trace ++ [HAction.extractEvent event_url, HAction.sleepSec (1/2)] }

/-- One iteration of the second harvest loop (lines 355-359): fetch and
extract again, union unconditionally, sleep another 0.5 seconds. -/
def harvestStep2 (get_artists : PyStr → Finset PyStr) (st : HarvestSt)
    (event_url : PyStr) : HarvestSt :=
  { all_artists := st.all_artists ∪ get_artists event_url
    failed_count := st.failed_count
    trace := st.trace ++ [HAction.extractEvent event_url, HAction.sleepSec (1/2)] }

/-- `main`'s artist-harvest stage as written (lines 328-359): the loop of
lines 333-347 followed by the second loop of lines 355-359 over the same
`event_urls` list. -/
def harvest_loops (get_artists : PyStr → Finset PyStr)
    (event_urls : List PyStr) : HarvestSt :=
  let st := event_urls.foldl (harvestStep1 get_artists)
    { all_artists := ∅, failed_count := 0, trace := [] }
  event_urls.foldl (harvestStep2 get_artists) st

/-- The single event URL used to exhibit the duplicated harvest. -/
def eventUrlW : PyStr := "https://www.last.fm/event/12345/lineup".toList

/-- Claim C2 is contradicted by the code: `main` contains two sequential
harvest loops over the same `event_urls` list (lines 333-347 and
355-359), so every discovered event URL is fetched and artist-extracted
twice, not once, with two 0.5-second sleeps per URL.  Evaluating the
harvest stage at a crawl that discovered one URL: the trace holds two
extraction calls for that URL. -/
theorem C2_event_harvested_twice :
    (harvest_loops (fun _ => {"X".toList}) [eventUrlW]).trace
      = [HAction.extractEvent eventUrlW, HAction.sleepSec (1/2),
         HAction.extractEvent eventUrlW, HAction.sleepSec (1/2)] ∧
    (harvest_loops (fun _ => {"X".toList}) [eventUrlW]).trace.count
      (HAction.extractEvent eventUrlW) = 2 := by
  constructor
  · rfl
  · decide

/-- The outcome of `main` past URL discovery (lines 315-386): the process
exit status, the report lines printed (only the `No events found` message
and the final artist listing are modelled; progress output is not), and
the harvest-stage trace.  The non-zero exit of a failed output-file write
(lines 381-383) is outside the modelled stdout path. -/
structure MainOutcome where
  exitCode : Nat
  printed : List PyStr
  harvestTrace : List HAction

/-- `main` after `get_all_event_urls` returned `event_urls`
(lines 324-386): with no events, print `No events found for user: ...`
and `sys.exit(0)`; otherwise run the harvest loops, sort, and build the
output lines (grouped under headings or as a plain list).  Python
iterates the artist set in an unspecified order before `sorted` re-sorts
it; the model enumerates the set in lexicographic order, which only fixes
the otherwise unspecified relative order of distinct names with equal
sort keys. -/
def mainAfterDiscovery (get_artists : PyStr → Finset PyStr)
    (event_urls : List PyStr) (username : PyStr)
    (ignore_the letter_headings : Bool) : MainOutcome :=
  if event_urls = [] then
    { exitCode := 0
      printed := ["No events found for user: ".toList ++ username]
      harvestTrace := [] }
  else
    let st := harvest_loops get_artists event_urls
    let sorted_artists :=
      sort_artists (st.all_artists.sort (fun a b => a ≤ b)) ignore_the
    let output_lines :=
      ("Artists (".toList ++ (Nat.repr sorted_artists.length).toList
          ++ " unique):".toList)
        :: (if letter_headings
            then format_output_with_headings sorted_artists ignore_the
            else ("--------------------------------------------------".toList)
              :: sorted_artists)
    { exitCode := 0
      printed := output_lines
      harvestTrace := st.trace }

/-- Claim C9: whenever the crawl discovers zero event URLs, the program
prints the `No events found` message and terminates with exit status 0
without ever invoking the artist-extraction stage (its harvest trace is
empty). -/
theorem C9_no_events_clean_exit (get_artists : PyStr → Finset PyStr)
    (username : PyStr) (ignore_the letter_headings : Bool)
    (event_urls : List PyStr) (h : event_urls = []) :
    (mainAfterDiscovery get_artists event_urls username
        ignore_the letter_headings).exitCode = 0 ∧
    ("No events found for user: ".toList ++ username)
      ∈ (mainAfterDiscovery get_artists event_urls username
          ignore_the letter_headings).printed ∧
    (mainAfterDiscovery get_artists event_urls username
        ignore_the letter_headings).harvestTrace = [] := by
  subst h
  exact ⟨rfl, List.mem_singleton.2 rfl, rfl⟩

/-- Witness for claim C9 at a concrete empty crawl. -/
theorem C9_no_events_clean_exit_witness :
    (mainAfterDiscovery (fun _ => ∅) [] ("alice".toList) false false).exitCode = 0 ∧
    ("No events found for user: ".toList ++ "alice".toList)
      ∈ (mainAfterDiscovery (fun _ => ∅) [] ("alice".toList) false false).printed ∧
    (mainAfterDiscovery (fun _ => ∅) [] ("alice".toList) false false).harvestTrace = [] :=
  C9_no_events_clean_exit (fun _ => ∅) ("alice".toList) false false [] rfl
